import Mathlib

/-!
Verification development for the exeris simulation core
(`exeris/core/actions.py`, `exeris/core/deferred.py`, `exeris/core/models.py`,
`exeris/core/main.py`).  Python code is shallowly embedded: pure fragments
become Lean functions, database rows become explicit record values, and
stateful methods become explicit state-passing functions.  Python floats on
game quantities are modelled by exact rationals; SQLAlchemy queries against
external world state (item lookups, proximity ranges) are modelled as oracle
fields on the input records.
-/

namespace Exeris

/-! ## Notifications (`models.Notification`, `WorkProcess.report_failure_notification`)

`Notification.__init__(title_tag, title_params, text_tag, text_params,
count=1, character=None, player=None)` stores its arguments and stamps the
current game date.  Parameter dictionaries are modelled as association
lists. -/

/-- Parameter map of a game-rule error (`GameException.error_kwargs`). -/
abbrev ErrorParams := List (String × String)

/-- One row of the `notifications` table, restricted to the columns touched by
`WorkProcess.report_failure_notification`. -/
structure Notif where
  titleTag : String
  titleParams : ErrorParams
  textTag : String
  textParams : ErrorParams
  character : Option Nat
  player : Option Nat
  count : Nat
  gameDate : Nat
  deriving Repr, DecidableEq

/-- The filter used by the `Notification.query.filter_by(...)` call in
`WorkProcess.report_failure_notification`: title tag/params, text tag/params,
recipient character, and `player=None` must all match. -/
def notifMatches (tag : String) (params : ErrorParams) (worker : Nat) (n : Notif) : Bool :=
  n.titleTag = tag && n.titleParams = params && n.textTag = tag && n.textParams = params &&
    n.character = some worker && n.player = none

/-- `query...first()` followed by `count += 1; update_date()`: update the first
matching row in place, or report that none matched. -/
def bumpFirstMatch (tag : String) (params : ErrorParams) (worker : Nat) (now : Nat) :
    List Notif → Option (List Notif)
  | [] => none
  | n :: ns =>
    if notifMatches tag params worker n then
      some ({ n with count := n.count + 1, gameDate := now } :: ns)
    else
      (bumpFirstMatch tag params worker now ns).map (n :: ·)

/-- `WorkProcess.report_failure_notification(error_tag, error_kwargs, worker)`:
if a notification with the same tag, params and recipient exists, increment its
`count` and refresh its timestamp; otherwise add a fresh row with `count = 1`. -/
def reportFailure (tag : String) (params : ErrorParams) (worker : Nat) (now : Nat)
    (notifs : List Notif) : List Notif :=
  match bumpFirstMatch tag params worker now notifs with
  | some updated => updated
  | none => notifs ++ [⟨tag, params, tag, params, some worker, none, 1, now⟩]

/-! ## Tick scheduler (`WorkProcess.perform_action`, non-activity WORK intents)

Lines 326-342 of `actions.py` run each non-activity intent's action inside
`db.session.begin_nested()`, with three `except` arms:
`TurningIntoIntentExceptionMixin` (silent rollback), `GameException` (rollback
plus failure notification to the executor), and a bare `except` that re-raises.
The possible outcomes of `action_to_perform.perform()` inside the sub-transaction
are modelled as a sum type; `success` carries the world produced by the
sub-transaction's mutations, which the rollback arms discard. -/

/-- Possible outcomes of running one intent's `perform()` inside the nested
sub-transaction, over an abstract world type `W`. -/
inductive ActionOutcome (W : Type) where
  | success (done : Bool) (world : W)
  | retryIntent
  | gameError (tag : String) (params : ErrorParams)
  | unknown (message : String)
  deriving Repr, DecidableEq

/-- The per-intent slice of scheduler state: the world, whether the processed
WORK intent still exists, and the notification table. -/
structure WPState (W : Type) where
  world : W
  intentPresent : Bool
  notifs : List Notif
  deriving Repr, DecidableEq

/-- One iteration of the `for work_intent in work_intents` loop of
`WorkProcess.perform_action` for a non-activity action, given the outcome of
the action's `perform()`.  An `Except.error` models an exception that escapes
the loop and aborts the whole tick. -/
def processWorkIntent {W : Type} (outcome : ActionOutcome W) (executor : Nat) (now : Nat)
    (st : WPState W) : Except String (WPState W) :=
  match outcome with
  | .success done world =>
    -- db.session.commit(): keep the sub-transaction's mutations;
    -- a truthy result deletes the intent.
    .ok { st with world := world, intentPresent := if done then false else st.intentPresent }
  | .retryIntent =>
    -- except TurningIntoIntentExceptionMixin: db.session.rollback()
    .ok st
  | .gameError tag params =>
    -- except GameException: rollback, then report_failure_notification(...)
    .ok { st with notifs := reportFailure tag params executor now st.notifs }
  | .unknown message =>
    -- bare except: log and re-raise
    .error message

/-! ## Worker-count bounds (`ActivityProgressProcess.perform_action` lines 627-631)

```
if "max_workers" in req:
    ActivityProgress.check_min_workers(active_workers, req["min_workers"])
if "min_workers" in req:
    ActivityProgress.check_max_workers(active_workers, req["max_workers"])
```
with `check_min_workers` raising `TooFewParticipantsException` when
`len(active_workers) < min_number` and `check_max_workers` raising
`TooManyParticipantsException` when `len(active_workers) > max_number`.
A lookup `req[k]` on an absent key raises `KeyError(k)`, which is not a
`GameException`. -/

/-- Exceptions that can escape the worker-bounds section. -/
inductive BoundsError where
  | keyMissing (key : String)
  | tooFewParticipants (minNumber : Nat)
  | tooManyParticipants (maxNumber : Nat)
  deriving Repr, DecidableEq

/-- `ActivityProgress.check_min_workers(active_workers, min_number)`. -/
def checkMinWorkers (activeWorkers : Nat) (minNumber : Nat) : Except BoundsError Unit :=
  if activeWorkers < minNumber then .error (.tooFewParticipants minNumber) else .ok ()

/-- `ActivityProgress.check_max_workers(active_workers, max_number)`. -/
def checkMaxWorkers (activeWorkers : Nat) (maxNumber : Nat) : Except BoundsError Unit :=
  if activeWorkers > maxNumber then .error (.tooManyParticipants maxNumber) else .ok ()

/-- The two guarded checks exactly as written in the source: the guard on
`"max_workers"` runs the minimum check on `req["min_workers"]`, and the guard
on `"min_workers"` runs the maximum check on `req["max_workers"]`. -/
def enforceWorkerBounds (minWorkers maxWorkers : Option Nat) (activeWorkers : Nat) :
    Except BoundsError Unit := do
  match maxWorkers with
  | some _ =>
    match minWorkers with
    | none => throw (.keyMissing "min_workers")
    | some m => checkMinWorkers activeWorkers m
  | none => pure ()
  match minWorkers with
  | some _ =>
    match maxWorkers with
    | none => throw (.keyMissing "max_workers")
    | some m => checkMaxWorkers activeWorkers m
  | none => pure ()

/-! ## Decay of activity progress (`DecayProcess.decay_progress_of_activities`)

```
activities = models.Activity.query.filter(Activity.ticks_left < Activity.ticks_needed).all()
for activity in activities:
    activity.ticks_left += min(ActivityProgressProcess.DEFAULT_PROGRESS, activity.ticks_needed)
```
with `ActivityProgressProcess.DEFAULT_PROGRESS = 5.0`. -/

/-- `ActivityProgressProcess.DEFAULT_PROGRESS`. -/
def DEFAULT_PROGRESS : ℚ := 5

/-- The `ticks_needed` / `ticks_left` columns of one `Activity` row. -/
structure ActivityTicks where
  ticksNeeded : ℚ
  ticksLeft : ℚ
  deriving Repr, DecidableEq

/-- `DecayProcess.decay_progress_of_activities` on one activity matching the
query filter: `ticks_left += min(DEFAULT_PROGRESS, ticks_needed)`. -/
def decayOneActivity (a : ActivityTicks) : ActivityTicks :=
  { a with ticksLeft := a.ticksLeft + min DEFAULT_PROGRESS a.ticksNeeded }

/-- The whole pass: activities with `ticks_left < ticks_needed` are nudged, the
rest are left alone. -/
def decayProgressOfActivities (activities : List ActivityTicks) : List ActivityTicks :=
  activities.map fun a => if a.ticksLeft < a.ticksNeeded then decayOneActivity a else a

/-! ## Combat hit (`FightInCombatAction.calculate_hit_damage` / `execute_hit`)

Stances are the string constants of `CombatProcess`; damages are game floats,
modelled as rationals.  `Combat.recorded_violence` is a JSON dict keyed by
`str(fighter.id)` (`Combat.set_recorded_damage` / `get_recorded_damage`). -/

/-- `CombatProcess.STANCE_OFFENSIVE`. -/
def STANCE_OFFENSIVE : String := "stance_offensive"

/-- `CombatProcess.STANCE_DEFENSIVE`. -/
def STANCE_DEFENSIVE : String := "stance_defensive"

/-- `CombatProcess.STANCE_RETREAT`. -/
def STANCE_RETREAT : String := "stance_retreat"

/-- `FightInCombatAction.calculate_hit_damage`: start from `0.1`, multiply by
`1.5` if the attacker is offensive, divide by `2` if the defender is
defensive. -/
def calculateHitDamage (attackerStance defenderStance : String) : ℚ :=
  let hitDamage : ℚ := 1/10
  let hitDamage := if attackerStance = STANCE_OFFENSIVE then hitDamage * (3/2) else hitDamage
  if defenderStance = STANCE_DEFENSIVE then hitDamage / 2 else hitDamage

/-- The `recorded_violence` dict of a `Combat` row. -/
structure CombatRow where
  recordedViolence : List (String × ℚ)
  deriving Repr, DecidableEq

/-- `Combat.get_recorded_damage(fighter)`: keyed by `str(fighter.id)`, default
`0.0`. -/
def getRecordedDamage (c : CombatRow) (fighterId : Nat) : ℚ :=
  match c.recordedViolence.lookup (toString fighterId) with
  | some v => v
  | none => 0

/-- `Combat.set_recorded_damage(fighter, value)`. -/
def setRecordedDamage (c : CombatRow) (fighterId : Nat) (value : ℚ) : CombatRow :=
  { c with recordedViolence :=
      (c.recordedViolence.filter fun p => p.1 ≠ toString fighterId) ++ [(toString fighterId, value)] }

/-- State touched by a hit: the defender's cumulative `damage` attribute and
the combat's `recorded_violence` tally. -/
structure HitState where
  foeDamage : ℚ
  combat : CombatRow
  deriving Repr, DecidableEq

/-- `FightInCombatAction.execute_hit(targets_combat_action)`: compute the hit
damage from the two stances, add it to the defender's cumulative damage, and
add it to the combat's recorded tally for that defender. -/
def executeHit (attackerStance defenderStance : String) (foeId : Nat) (st : HitState) : HitState :=
  let hitDamage := calculateHitDamage attackerStance defenderStance
  { foeDamage := st.foeDamage + hitDamage,
    combat := setRecordedDamage st.combat foeId (getRecordedDamage st.combat foeId + hitDamage) }

/-! ## Per-worker checks of the activity-progress engine
(`ActivityProgressProcess.perform_action` lines 601-625, with the helper
classmethods of `ActivityProgress`)

Item lookups (`general.ItemQueryHelper`, not part of `src/`) are abstracted as
oracle fields on the worker: `bestToolQuality g` is the best
`efficiency * quality` among the worker's held items matching tool group `g`
(`ActivityProgress._get_most_efficient_item_relative_quality`), `none` when the
worker holds no matching item.  `skillFactor` is `worker.get_skill_factor`. -/

/-- One worker of an activity, with the oracle answers of the world-state
queries the per-worker checks make. -/
structure Worker where
  id : Nat
  nearActivity : Bool
  bestToolQuality : String → Option ℚ
  skillFactor : String → ℚ

/-- The requirement categories consulted per worker, each `none` when the key
is absent from the activity's requirement map. -/
structure WorkerReq where
  mandatoryTools : Option (List String)
  optionalTools : Option (List (String × ℚ))
  skills : Option (List (String × ℚ))

/-- The typed game-rule exceptions the per-worker checks can raise. -/
inductive WorkerError where
  | tooFarFromActivity
  | noToolForActivity (toolName : String)
  | tooLowSkill (skillName : String) (requiredLevel : ℚ)
  deriving Repr, DecidableEq

/-- The `worker_impact` dict accumulated by the checks: `tool_based_quality`
(present when `mandatory_tools` is checked) and `progress_ratio` (present when
`optional_tools` is checked, folded into one rational here). -/
structure WorkerImpact where
  toolBasedQuality : List ℚ
  progressBonus : ℚ
  deriving Repr, DecidableEq

/-- `ActivityProgress.check_worker_proximity`: raise `TooFarFromActivityException`
unless the worker is within `SameLocationRange` of the activity. -/
def checkWorkerProximity (w : Worker) : Except WorkerError Unit :=
  if w.nearActivity then .ok () else .error .tooFarFromActivity

/-- `ActivityProgress.check_mandatory_tools`: for each required tool group, the
worker must hold a matching item (else `NoToolForActivityException`); the best
matching item's relative quality is collected into `tool_based_quality`. -/
def checkMandatoryTools (w : Worker) : List String → Except WorkerError (List ℚ)
  | [] => .ok []
  | t :: ts =>
    match w.bestToolQuality t with
    | none => .error (.noToolForActivity t)
    | some q => (checkMandatoryTools w ts).map (q :: ·)

/-- `ActivityProgress.check_optional_tools`: sum, over the optional tool groups
the worker holds a matching item for, `bonus * best relative quality`; groups
without a matching item are skipped. -/
def checkOptionalTools (w : Worker) : List (String × ℚ) → ℚ
  | [] => 0
  | (t, bonus) :: ts =>
    match w.bestToolQuality t with
    | none => checkOptionalTools w ts
    | some q => bonus * q + checkOptionalTools w ts

/-- `ActivityProgress.check_skills`: every listed skill must reach its minimum
(else `TooLowSkillException`). -/
def checkSkills (w : Worker) : List (String × ℚ) → Except WorkerError Unit
  | [] => .ok ()
  | (s, minValue) :: ss =>
    if w.skillFactor s < minValue then .error (.tooLowSkill s minValue)
    else checkSkills w ss

/-- The body of the `for worker in self.workers` loop, up to the point where
the worker is appended to `active_workers`: proximity, then (when the category
is present) mandatory tools, optional tools and skills, in source order. -/
def checkWorker (req : WorkerReq) (w : Worker) : Except WorkerError WorkerImpact := do
  checkWorkerProximity w
  let toolQuality ← match req.mandatoryTools with
    | some tools => checkMandatoryTools w tools
    | none => pure []
  let bonus := match req.optionalTools with
    | some tools => checkOptionalTools w tools
    | none => 0
  match req.skills with
  | some skills => checkSkills w skills
  | none => pure ()
  return ⟨toolQuality, bonus⟩

/-- The accumulated result of the worker loop: the `active_workers` list, the
`tool_based_quality` samples and worker contributions to `progress_ratio`
gathered on `self`, and one failure report per excluded worker (each becomes a
`WorkProcess.report_failure_notification` call). -/
structure WorkersOutcome where
  activeWorkers : List Worker
  toolBasedQuality : List ℚ
  progressRate : ℚ
  failures : List (Nat × WorkerError)

/-- The worker loop itself: a failed check reports to that worker and skips
them; a passing worker is appended to `active_workers`, contributes its
`tool_based_quality` samples, its optional-tool bonus, and the
`DEFAULT_PROGRESS` constant to `progress_ratio`. -/
def processWorkers (req : WorkerReq) : List Worker → WorkersOutcome
  | [] => ⟨[], [], 0, []⟩
  | w :: ws =>
    let rest := processWorkers req ws
    match checkWorker req w with
    | .ok impact =>
      ⟨w :: rest.activeWorkers, impact.toolBasedQuality ++ rest.toolBasedQuality,
        impact.progressBonus + DEFAULT_PROGRESS + rest.progressRate, rest.failures⟩
    | .error e =>
      ⟨rest.activeWorkers, rest.toolBasedQuality, rest.progressRate, (w.id, e) :: rest.failures⟩

/-- Arithmetic mean of a quality-sample list (`statistics.mean`). -/
def meanQ (l : List ℚ) : ℚ := l.sum / l.length

/-- `mandatory_equipment_based_quality` (lines 641-643): the mean of all
mandatory tool and machine quality samples, defaulting to `1` when none
apply. -/
def mandatoryEquipmentQuality (toolQuality machineQuality : List ℚ) : ℚ :=
  if toolQuality ++ machineQuality = [] then 1 else meanQ (toolQuality ++ machineQuality)

/-- The pair handed to `ActivityProgress.calculate_resultant_progress`:
the final `progress_ratio` (base contributions from optional machines plus the
worker loop's contributions) and `mandatory_equipment_based_quality`.  The
`ticks_left` decrement of the tick is
`progress_ratio * max(1, quality) ** 0.5`, a function of exactly this pair. -/
def progressArgs (baseRate : ℚ) (machineQuality : List ℚ) (req : WorkerReq)
    (workers : List Worker) : ℚ × ℚ :=
  let out := processWorkers req workers
  (baseRate + out.progressRate, mandatoryEquipmentQuality out.toolBasedQuality machineQuality)

/-- The square of `ActivityProgress.calculate_resultant_progress` (the source
computes `progress_ratio * max(1, quality) ** 0.5`; squaring avoids the
irrational square root while determining the decrement up to sign). -/
def resultantProgressSq (progressRate quality : ℚ) : ℚ :=
  progressRate ^ 2 * max 1 quality

/-! ## Input-requirement ledger
(`AddEntityToActivityAction.perform_action` lines 1205-1221 commits material to
one requirement line; `DecayProcess.update_activity_requirements` lines 941-955
un-commits it.)

One requirement line `{needed, left}` is tracked in group units together with
two ghost ledgers: the total group units ever committed
(`material_left_reduction` per commit) and the total ever un-committed by decay
(`min(units_of_group_to_be_removed, units_used)` per un-commit).
`ratio` is `required_group.quantity_efficiency(item.type)` (group units per
item unit). -/

/-- `left`/`needed` of one input-requirement line plus the two ghost ledgers. -/
structure ReqLineState where
  needed : ℚ
  left : ℚ
  committed : ℚ
  uncommitted : ℚ
  deriving Repr, DecidableEq

/-- `material_left_reduction = min(self.amount, math.ceil(left / ratio)) * ratio`
(lines 1210-1219): the group units a commit of `a` item units at conversion
`ratio` subtracts from `left` before clamping. -/
def commitReduction (ratio : ℚ) (a : ℕ) (left : ℚ) : ℚ :=
  ((min (a : ℤ) ⌈left / ratio⌉ : ℤ) : ℚ) * ratio

/-- The group units `DecayProcess.update_activity_requirements` gives back to
`left` when `r` item units decay: `min(math.ceil(r * ratio), needed - left)`. -/
def uncommitReturn (ratio : ℚ) (r : ℚ) (needed left : ℚ) : ℚ :=
  min ((⌈r * ratio⌉ : ℤ) : ℚ) (needed - left)

/-- One reachable operation on a requirement line: a commit via
`AddEntityToActivityAction` (guarded by the source's `left == 0: continue`, so
only lines with material still missing are committed to) or an un-commit via
the decay process. -/
inductive ReqStep : ReqLineState → ReqLineState → Prop
  | commit (ratio : ℚ) (a : ℕ) (s : ReqLineState)
      (hratio : 0 < ratio) (hleft : 0 < s.left) :
      ReqStep s { needed := s.needed,
                  left := max 0 (s.left - commitReduction ratio a s.left),
                  committed := s.committed + commitReduction ratio a s.left,
                  uncommitted := s.uncommitted }
  | uncommit (ratio : ℚ) (r : ℚ) (s : ReqLineState)
      (hratio : 0 < ratio) (hr : 0 ≤ r) :
      ReqStep s { needed := s.needed,
                  left := s.left + uncommitReturn ratio r s.needed s.left,
                  committed := s.committed,
                  uncommitted := s.uncommitted + uncommitReturn ratio r s.needed s.left }

/-- A fresh requirement line: nothing committed yet, `left = needed`. -/
def initReqLine (needed : ℚ) : ReqLineState := ⟨needed, needed, 0, 0⟩

/-- States reachable from a fresh line by any sequence of commits and
un-commits. -/
def ReqReachable (needed : ℚ) (s : ReqLineState) : Prop :=
  Relation.ReflTransGen ReqStep (initReqLine needed) s

/-- The same step relation restricted to commits whose `ceil`-rounded group
reduction does not overshoot `left` (so the `max(0, ...)` clamp of the source
is inactive). -/
inductive ReqStepSafe : ReqLineState → ReqLineState → Prop
  | commit (ratio : ℚ) (a : ℕ) (s : ReqLineState)
      (hratio : 0 < ratio) (hleft : 0 < s.left)
      (hsafe : commitReduction ratio a s.left ≤ s.left) :
      ReqStepSafe s { needed := s.needed,
                      left := max 0 (s.left - commitReduction ratio a s.left),
                      committed := s.committed + commitReduction ratio a s.left,
                      uncommitted := s.uncommitted }
  | uncommit (ratio : ℚ) (r : ℚ) (s : ReqLineState)
      (hratio : 0 < ratio) (hr : 0 ≤ r) :
      ReqStepSafe s { needed := s.needed,
                      left := s.left + uncommitReturn ratio r s.needed s.left,
                      committed := s.committed,
                      uncommitted := s.uncommitted + uncommitReturn ratio r s.needed s.left }

/-- Reachability along overshoot-free steps only. -/
def ReqReachableSafe (needed : ℚ) (s : ReqLineState) : Prop :=
  Relation.ReflTransGen ReqStepSafe (initReqLine needed) s

/-! ## `AddEntityToActivityAction.perform_action` (lines 1186-1245)

The method is embedded as a state-transition function whose error results carry
the state as it stood when the exception was raised, mirroring the order of
checks and mutations in the source.  External queries (`has_access` ranges,
`required_group.contains`, the two efficiency factors) are oracle fields. -/

/-- One line of the activity's `requirements["input"]` map, with the oracle
answers of the group-membership and efficiency queries for the item type being
added. -/
structure ReqGroup where
  name : String
  needed : ℚ
  left : ℚ
  usedType : Option String
  quality : Option ℚ
  containsItemType : Bool
  ratio : ℚ
  qualityEff : ℚ
  deriving Repr, DecidableEq

/-- The inputs of one `perform_action` call that are not mutated by it. -/
structure AddInput where
  hasItemAccess : Bool
  hasActivityAccess : Bool
  amount : Nat
  itemTypeName : String
  itemStackable : Bool
  itemQuality : ℚ
  deriving Repr, DecidableEq

/-- The state `perform_action` can mutate: the item stack's amount, the item
units already moved into the activity (`role` used-for), and the sorted
`requirements["input"]` lines. -/
structure AddState where
  itemAmount : Nat
  activityItems : Nat
  inputReq : List ReqGroup
  deriving Repr, DecidableEq

/-- The typed domain exceptions `perform_action` can raise. -/
inductive AddError where
  | entityNotInInventory
  | tooFarFromActivity
  | invalidAmount
  | onlySpecificTypeForGroup (typeName groupName : String)
  | itemNotApplicable
  deriving Repr, DecidableEq

/-- Result of a `perform_action` call: success with the new state, or a raised
exception together with the state as it stood at the raise. -/
inductive AddResult where
  | ok (s : AddState)
  | err (e : AddError) (s : AddState)
  deriving Repr, DecidableEq

/-- The `used_type` lock check at the top of the loop body: a locked group must
be fed exactly its recorded type. -/
def usedTypeMismatch (inp : AddInput) (g : ReqGroup) : Bool :=
  match g.usedType with
  | some t => t ≠ inp.itemTypeName
  | none => false

/-- The `for required_group_name, required_group_params in sorted(...)` loop:
`processed` is the prefix already passed over.  A locked-type mismatch raises;
fulfilled lines and lines the item type cannot satisfy are skipped; the first
satisfiable line receives the material (stack moved into the activity, `left`
clamped at `0`, `used_type` locked, quality accumulated for non-stackables) and
the loop breaks; falling off the end raises
`ItemNotApplicableForActivityException`. -/
def addLoop (inp : AddInput) (itemAmount activityItems : Nat) (processed : List ReqGroup) :
    List ReqGroup → AddResult
  | [] => .err .itemNotApplicable ⟨itemAmount, activityItems, processed⟩
  | g :: rest =>
    if usedTypeMismatch inp g then
      .err (.onlySpecificTypeForGroup (g.usedType.getD "") g.name)
        ⟨itemAmount, activityItems, processed ++ g :: rest⟩
    else if g.left = 0 then
      addLoop inp itemAmount activityItems (processed ++ [g]) rest
    else if !g.containsItemType then
      addLoop inp itemAmount activityItems (processed ++ [g]) rest
    else
      let amountToAdd := min inp.amount (Int.toNat ⌈g.left / g.ratio⌉)
      let reduction : ℚ := (amountToAdd : ℚ) * g.ratio
      let newQuality : Option ℚ :=
        if inp.itemStackable then g.quality
        else some (g.qualityEff * inp.itemQuality * (reduction / g.needed) + g.quality.getD 0)
      let updated : ReqGroup :=
        { g with left := max 0 (g.left - reduction), usedType := some inp.itemTypeName,
                 quality := newQuality }
      .ok ⟨itemAmount - amountToAdd, activityItems + amountToAdd, processed ++ updated :: rest⟩

/-- `AddEntityToActivityAction.perform_action`: inventory access, activity
proximity and amount validity are checked first, then the requirement-line
loop runs. -/
def performAdd (inp : AddInput) (s : AddState) : AddResult :=
  if !inp.hasItemAccess then .err .entityNotInInventory s
  else if !inp.hasActivityAccess then .err .tooFarFromActivity s
  else if inp.amount > s.itemAmount then .err .invalidAmount s
  else addLoop inp s.itemAmount s.activityItems [] s.inputReq

/-! ## Continuation registry (`deferred.serialize` / `deferred.call` / `deferred.convert`)

An action object is its type identifier (the qualified class name) together
with the values stored for its constructor parameters.  `serialize` walks those
values with runtime type dispatch: an `Entity` becomes its integer id, an
`EntityType` its name, a nested `AbstractAction` a recursively serialized
record, anything else is stored as-is.  `call` re-imports the class by its
identifier, and the class's `@convert` decorator (when present) converts each
keyword argument according to the parameter's declared type before invoking the
constructor, which raises `TypeError` on missing required or unexpected
parameters. -/

mutual

/-- A runtime argument value of an action object. -/
inductive Value where
  | ent (id : Nat)
  | etype (name : String)
  | actV (a : ActObj)
  | vint (n : Int)
  | vstr (s : String)
  | vnull
  | raw (s : SerVal)

/-- An action instance: qualified class name plus the attribute values stored
for its constructor parameters. -/
inductive ActObj where
  | mk (typeId : String) (args : ValArgs)

/-- The constructor-argument dictionary of an action instance. -/
inductive ValArgs where
  | nil
  | cons (name : String) (v : Value) (rest : ValArgs)

/-- A persisted JSON value inside a serialized action record. -/
inductive SerVal where
  | sint (n : Int)
  | sstr (s : String)
  | snull
  | srec (typeId : String) (args : SerArgs)

/-- The persisted `args` dictionary of a serialized record. -/
inductive SerArgs where
  | nil
  | cons (name : String) (v : SerVal) (rest : SerArgs)

end

mutual

/-- The per-argument dispatch of `deferred.serialize`: `models.Entity` values
serialize to their id, `models.EntityType` values to their name, nested
`AbstractAction` values recursively, anything else as-is. -/
def serializeV (v : Value) : SerVal :=
  match v with
  | .ent id => .sint (id : Int)
  | .etype n => .sstr n
  | .actV a => serializeObj a
  | .vint n => .sint n
  | .vstr s => .sstr s
  | .vnull => .snull
  | .raw s => s
termination_by structural v

/-- `deferred.serialize(obj)`: `[qualified_class_name, {arg: serialized value}]`
over the constructor parameters. -/
def serializeObj (a : ActObj) : SerVal :=
  match a with
  | .mk typeId args => .srec typeId (serializeArgs args)
termination_by structural a

/-- Serialization of the whole argument dictionary, in order. -/
def serializeArgs (args : ValArgs) : SerArgs :=
  match args with
  | .nil => .nil
  | .cons n v rest => .cons n (serializeV v) (serializeArgs rest)
termination_by structural args

end

/-- The declared parameter type in a `@convert(...)` decorator, as the
decorator's dispatch sees it: a `db.Model` subclass keyed by integer id (the
`Entity` hierarchy), a `db.Model` subclass keyed by name (the `EntityType`
hierarchy), or an `AbstractAction` subclass. -/
inductive ConvKind where
  | entityModel
  | entityTypeModel
  | actionClass
  deriving Repr, DecidableEq

/-- What `call` needs to know about one action class: its constructor
parameters in order, the ones without default values, and the `@convert`
declaration for each (none for parameters without one, and everywhere for
classes without the decorator). -/
structure VariantDesc where
  initArgs : List String
  required : List String
  convOf : String → Option ConvKind

/-- The importable action classes, keyed by qualified name. -/
abbrev Registry := List (String × VariantDesc)

/-- `object_import` by qualified name. -/
def lookupVariant (reg : Registry) (typeId : String) : Option VariantDesc :=
  (reg.find? fun p => p.1 = typeId).map (·.2)

/-- The database rows `query.get` can resolve: existing entity ids and known
entity-type names. -/
structure World where
  entityIds : List Nat
  typeNames : List String

/-- Exceptions escaping `deferred.call`: the `AssertionError` for a non-list
record, the `ImportError`/`AttributeError` from `object_import` on an unknown
qualified name, and the `TypeError` from invoking the constructor with
unsatisfiable arguments. -/
inductive CallErr where
  | notAList
  | importFailure (typeId : String)
  | typeFailure (typeId : String)
  deriving Repr, DecidableEq

/-- Lookup in an argument dictionary. -/
def valLookup : ValArgs → String → Option Value
  | .nil, _ => none
  | .cons n v rest, key => if n = key then some v else valLookup rest key

/-- Names bound in an argument dictionary. -/
def valNames : ValArgs → List String
  | .nil => []
  | .cons n _ rest => n :: valNames rest

/-- Names bound in a serialized argument dictionary. -/
def serNames : SerArgs → List String
  | .nil => []
  | .cons n _ rest => n :: serNames rest

/-- Drop every binding of `key`. -/
def valRemove : ValArgs → String → ValArgs
  | .nil, _ => .nil
  | .cons n v rest, key =>
    if n = key then valRemove rest key else .cons n v (valRemove rest key)

/-- `kwargs.update(injected_args)`: injected values overwrite stored ones,
fresh injected names are appended. -/
def mergeArgs : ValArgs → ValArgs → ValArgs
  | .nil, injected => injected
  | .cons n v rest, injected =>
    match valLookup injected n with
    | some v' => .cons n v' (mergeArgs rest (valRemove injected n))
    | none => .cons n v (mergeArgs rest injected)

/-- Every parameter without a default value is bound. -/
def requiredOk (d : VariantDesc) (args : ValArgs) : Bool :=
  d.required.all fun r => (valLookup args r).isSome

/-- No keyword argument falls outside the declared parameters. -/
def namesOk (d : VariantDesc) (args : ValArgs) : Bool :=
  (valNames args).all fun n => d.initArgs.contains n

mutual

/-- `deferred.call(json_to_call, **injected_args)`: reject non-list records,
re-import the class by its identifier (unknown name: import failure), convert
stored arguments per the class's `@convert` declarations, merge the injected
arguments over them, and invoke the constructor, which rejects argument
dictionaries that do not fit its signature. -/
def call (reg : Registry) (w : World) (injected : ValArgs) (v : SerVal) :
    Except CallErr ActObj :=
  match v with
  | .srec typeId args =>
    match lookupVariant reg typeId with
    | none => .error (.importFailure typeId)
    | some d =>
      match convertArgs reg w d args with
      | .error e => .error e
      | .ok converted =>
        let merged := mergeArgs converted injected
        if requiredOk d merged && namesOk d merged then
          .ok (.mk typeId merged)
        else
          .error (.typeFailure typeId)
  | .sint _ => .error .notAList
  | .sstr _ => .error .notAList
  | .snull => .error .notAList

/-- One argument conversion of the `deferred.convert` wrapper: an `int`/`str`
value with a `db.Model` declaration is resolved by primary-key lookup (a miss
resolves to `None`), a list value with an `AbstractAction` declaration is
recursively deserialized (the decorator invokes `deferred.call` with no
injected arguments on the stored record; its body appears unfolded on the
record's components here, and `convertArg_actionClass_eq_call` below checks it
against `call`), everything else passes through. -/
def convertArg (reg : Registry) (w : World) (kind : Option ConvKind) (v : SerVal) :
    Except CallErr Value :=
  match v with
  | .sint n =>
    match kind with
    | some .entityModel =>
      pure (if 0 ≤ n ∧ n.toNat ∈ w.entityIds then .ent n.toNat else .vnull)
    | some .entityTypeModel => pure .vnull
    | _ => pure (.vint n)
  | .sstr s =>
    match kind with
    | some .entityModel => pure .vnull
    | some .entityTypeModel => pure (if s ∈ w.typeNames then .etype s else .vnull)
    | _ => pure (.vstr s)
  | .snull => pure .vnull
  | .srec t as =>
    match kind with
    | some .actionClass =>
      match lookupVariant reg t with
      | none => .error (.importFailure t)
      | some d =>
        match convertArgs reg w d as with
        | .error e => .error e
        | .ok converted =>
          let merged := mergeArgs converted .nil
          if requiredOk d merged && namesOk d merged then
            .ok (.actV (.mk t merged))
          else
            .error (.typeFailure t)
    | _ => pure (.raw (.srec t as))
termination_by structural v

/-- Conversion of the whole stored argument dictionary. -/
def convertArgs (reg : Registry) (w : World) (d : VariantDesc) (args : SerArgs) :
    Except CallErr ValArgs :=
  match args with
  | .nil => .ok .nil
  | .cons n v rest =>
    match convertArg reg w (d.convOf n) v with
    | .error e => .error e
    | .ok v' =>
      match convertArgs reg w d rest with
      | .error e => .error e
      | .ok rest' => .ok (.cons n v' rest')
termination_by structural args

end

mutual

/-- An argument value whose serialized form converts back to itself: entity
references declared `@convert`-ed to a model class and present in the store,
entity-type references declared and known, nested actions declared as actions
and themselves convertible, and plain data without a declaration. -/
def convertibleV (reg : Registry) (w : World) (kind : Option ConvKind) (v : Value) : Bool :=
  match v with
  | .ent id => kind = some ConvKind.entityModel && w.entityIds.contains id
  | .etype n => kind = some ConvKind.entityTypeModel && w.typeNames.contains n
  | .actV a => kind = some ConvKind.actionClass && convertibleObj reg w a
  | .vint _ => kind = none
  | .vstr _ => kind = none
  | .vnull => false
  | .raw _ => false
termination_by structural v

/-- An action object `materialize ∘ serialize` maps to itself: a registered
variant whose argument dictionary fits the constructor signature, with every
argument convertible under its declaration. -/
def convertibleObj (reg : Registry) (w : World) (a : ActObj) : Bool :=
  match a with
  | .mk t args =>
    match lookupVariant reg t with
    | none => false
    | some d => requiredOk d args && namesOk d args && convertibleArgs reg w d args
termination_by structural a

/-- Argument-wise convertibility. -/
def convertibleArgs (reg : Registry) (w : World) (d : VariantDesc) (args : ValArgs) : Bool :=
  match args with
  | .nil => true
  | .cons n v rest => convertibleV reg w (d.convOf n) v && convertibleArgs reg w d rest
termination_by structural args

end

/-- `@convert(executor=models.Character, activity=models.Activity)` of
`WorkOnActivityAction`. -/
def workOnActivityConv : String → Option ConvKind
  | "executor" => some .entityModel
  | "activity" => some .entityModel
  | _ => none

/-- `@convert(executor=models.Entity, combat_entity=models.Combat)` of
`FightInCombatAction`. -/
def fightInCombatConv : String → Option ConvKind
  | "executor" => some .entityModel
  | "combat_entity" => some .entityModel
  | _ => none

/-- `@convert(executor=models.Character, entity=models.Entity, action=Action)`
of `TravelToEntityAndPerformAction`. -/
def travelToEntityConv : String → Option ConvKind
  | "executor" => some .entityModel
  | "entity" => some .entityModel
  | "action" => some .actionClass
  | _ => none

/-- The serializable action variants referred to by the claims, with their
constructor signatures and `@convert` declarations as written in
`exeris/core/actions.py`: `JoinActivityAction` and `GiveItemAction` carry no
`@convert` decorator at all. -/
def exerisRegistry : Registry :=
  [ ("exeris.core.actions.WorkOnActivityAction",
      ⟨["executor", "activity"], ["executor", "activity"], workOnActivityConv⟩),
    ("exeris.core.actions.FightInCombatAction",
      ⟨["executor", "combat_entity", "side", "stance"],
       ["executor", "combat_entity", "side", "stance"], fightInCombatConv⟩),
    ("exeris.core.actions.TravelToEntityAndPerformAction",
      ⟨["executor", "entity", "action"], ["executor", "entity", "action"], travelToEntityConv⟩),
    ("exeris.core.actions.JoinActivityAction",
      ⟨["executor", "activity"], ["executor", "activity"], fun _ => none⟩),
    ("exeris.core.actions.GiveItemAction",
      ⟨["executor", "item", "receiver", "amount"],
       ["executor", "item", "receiver"], fun _ => none⟩) ]

deriving instance DecidableEq for Value, ActObj, ValArgs, SerVal, SerArgs

deriving instance DecidableEq for Except

/-- A store with two entities and one item type, used for concrete
evaluations. -/
def demoWorld : World := ⟨[5, 7], ["axe"]⟩

/-- A `JoinActivityAction(executor, activity)` instance held in memory: both
stored attribute values are entity references. -/
def joinActivityObj : ActObj :=
  .mk "exeris.core.actions.JoinActivityAction"
    (.cons "executor" (.ent 5) (.cons "activity" (.ent 7) .nil))

/-- A `WorkOnActivityAction(executor, activity)` instance. -/
def workOnActivityObj : ActObj :=
  .mk "exeris.core.actions.WorkOnActivityAction"
    (.cons "executor" (.ent 5) (.cons "activity" (.ent 7) .nil))

/-! ## Concrete sample data used by the witness evaluations -/

/-- A requirement map with `{"mandatory_tools": ["axe"]}` and nothing else
relevant per worker. -/
def axeReq : WorkerReq := ⟨some ["axe"], none, none⟩

/-- A worker near the activity who holds no tools at all. -/
def toollessWorker : Worker := ⟨1, true, fun _ => none, fun _ => 0⟩

/-- A worker near the activity holding a quality-`1` item of every group. -/
def axeWorker : Worker := ⟨2, true, fun _ => some 1, fun _ => 0⟩

/-- An `AddEntityToActivityAction` call whose amount exceeds the item stack. -/
def demoAddInput : AddInput := ⟨true, true, 5, "hammer", true, 1⟩

/-- An activity state with a single input line locked to a different type. -/
def demoAddState : AddState := ⟨3, 0, [⟨"anvil", 10, 4, some "iron", none, false, 1, 1⟩]⟩

/-! # Theorems -/

/-! ## Helper lemmas -/

/-- A key filtered out of an association list is not found afterwards. -/
theorem lookup_filter_ne (l : List (String × ℚ)) (key : String) :
    (l.filter fun p => p.1 ≠ key).lookup key = none := by
  induction l with
  | nil => rfl
  | cons p rest ih =>
    rw [List.filter_cons]
    by_cases h : p.1 = key
    · rw [if_neg (by simp [h])]
      exact ih
    · rw [if_pos (by simp [h])]
      have hb : (key == p.1) = false := beq_eq_false_iff_ne.mpr fun hk => h hk.symm
      simpa [List.lookup, hb] using ih

/-- Looking up a key in an appended association list whose first part misses
it finds it in the second part. -/
theorem lookup_append_of_none (l₁ l₂ : List (String × ℚ)) (key : String)
    (h : l₁.lookup key = none) : (l₁ ++ l₂).lookup key = l₂.lookup key := by
  induction l₁ with
  | nil => rfl
  | cons p rest ih =>
    cases hb : (key == p.1) with
    | true => simp [List.lookup, hb] at h
    | false =>
      simp only [List.lookup, hb] at h
      simpa [List.lookup, hb] using ih h

/-- `set_recorded_damage` followed by `get_recorded_damage` on the same
fighter returns the stored value. -/
theorem getRecordedDamage_set (c : CombatRow) (fighterId : Nat) (v : ℚ) :
    getRecordedDamage (setRecordedDamage c fighterId v) fighterId = v := by
  unfold getRecordedDamage setRecordedDamage
  rw [lookup_append_of_none _ _ _ (lookup_filter_ne _ _)]
  simp [List.lookup]

/-! ## C1 -/

/-- C1: after per-worker exclusions the engine is claimed to raise
`TooFewParticipantsError` when `min_workers` is present and unmet, and
`TooManyParticipantsError` when `max_workers` is present and exceeded.  The
source swaps the two guards (`actions.py` lines 627-631): with only
`min_workers` present (bound `2`, `0` active workers) it evaluates
`req["max_workers"]` and dies with a `KeyError`, and with only `max_workers`
present (bound `0`, `1` active worker) it evaluates `req["min_workers"]` and
dies with a `KeyError` — in neither situation is the claimed participant error
raised. -/
theorem c1_worker_bounds_swapped_guards :
    enforceWorkerBounds (some 2) none 0 = .error (.keyMissing "max_workers") ∧
    enforceWorkerBounds none (some 0) 1 = .error (.keyMissing "min_workers") ∧
    (∀ n, (BoundsError.keyMissing "max_workers") ≠ .tooFewParticipants n) ∧
    (∀ n, (BoundsError.keyMissing "min_workers") ≠ .tooManyParticipants n) ∧
    enforceWorkerBounds (some 2) (some 3) 1 = .error (.tooFewParticipants 2) ∧
    enforceWorkerBounds (some 0) (some 3) 4 = .error (.tooManyParticipants 3) := by
  refine ⟨rfl, rfl, ?_, ?_, rfl, rfl⟩
  · intro n h
    exact BoundsError.noConfusion h
  · intro n h
    exact BoundsError.noConfusion h

/-! ## C2 -/

/-- C2: a non-activity WORK intent's action runs in its own sub-transaction
with three-way failure classification: a retry-as-intent exception rolls back
only the sub-transaction, leaves the intent and emits nothing; a typed
game-rule exception rolls back, leaves the intent and reports a notification
with the exception's tag and params to the executor; any other exception
propagates and aborts the tick. -/
theorem c2_work_intent_failure_classification {W : Type} (st : WPState W)
    (executor now : Nat) (tag : String) (params : ErrorParams) (message : String) :
    (processWorkIntent (W := W) .retryIntent executor now st = .ok st) ∧
    (∃ st', processWorkIntent (W := W) (.gameError tag params) executor now st = .ok st' ∧
      st'.world = st.world ∧ st'.intentPresent = st.intentPresent ∧
      st'.notifs = reportFailure tag params executor now st.notifs) ∧
    (processWorkIntent (W := W) (.unknown message) executor now st = .error message) :=
  ⟨rfl, ⟨_, rfl, rfl, rfl, rfl⟩, rfl⟩

/-! ## C4 -/

/-- C4: the claim says one decay run strictly increases `ticks_left` of an
unfinished activity and caps the result at `ticks_needed`.
`DecayProcess.decay_progress_of_activities` (`actions.py` line 915) instead
caps the *increment*: `ticks_left += min(DEFAULT_PROGRESS, ticks_needed)`.
For an activity with `ticks_needed = 10` and `ticks_left = 8` the pass
produces `ticks_left = 13 > ticks_needed`, so the cap the claim (and
`decay_abandoned_activities`' filter `ticks_left == ticks_needed`) relies on
does not hold. -/
theorem c4_decay_overshoots_ticks_needed :
    decayProgressOfActivities [⟨10, 8⟩] = [⟨10, 13⟩] ∧
    ¬ ((13 : ℚ) ≤ 10) := by
  constructor
  · simp only [decayProgressOfActivities, List.map]
    rw [if_pos (by norm_num : (8:ℚ) < 10)]
    simp only [decayOneActivity, DEFAULT_PROGRESS]
    rw [min_eq_left (by norm_num : (5:ℚ) ≤ 10)]
    norm_num [ActivityTicks.mk.injEq]
  · norm_num

/-! ## C8 -/

/-- C8: every hit deals `0.1`, times `1.5` for an offensive attacker, divided
by `2` for a defensive defender; the amount is added both to the defender's
cumulative damage and to the combat's recorded tally; with an offensive
attacker and a non-defensive defender the hit is exactly `0.15`. -/
theorem c8_hit_damage_formula (attackerStance defenderStance : String)
    (foeId : Nat) (st : HitState) :
    calculateHitDamage attackerStance defenderStance =
      (1/10) * (if attackerStance = STANCE_OFFENSIVE then 3/2 else 1) /
        (if defenderStance = STANCE_DEFENSIVE then 2 else 1) ∧
    (executeHit attackerStance defenderStance foeId st).foeDamage =
      st.foeDamage + calculateHitDamage attackerStance defenderStance ∧
    getRecordedDamage (executeHit attackerStance defenderStance foeId st).combat foeId =
      getRecordedDamage st.combat foeId + calculateHitDamage attackerStance defenderStance ∧
    (defenderStance ≠ STANCE_DEFENSIVE →
      calculateHitDamage STANCE_OFFENSIVE defenderStance = 15/100) := by
  refine ⟨?_, rfl, ?_, ?_⟩
  · by_cases h1 : attackerStance = STANCE_OFFENSIVE <;>
      by_cases h2 : defenderStance = STANCE_DEFENSIVE <;>
      simp [calculateHitDamage, h1, h2]
  · exact getRecordedDamage_set _ _ _
  · intro h
    simp [calculateHitDamage, h]
    norm_num

/-- Witness for C8: with a retreating defender the offensive hit is exactly
`0.15`, and both damage accounts increase by it. -/
theorem c8_hit_damage_witness :
    STANCE_RETREAT ≠ STANCE_DEFENSIVE ∧
    calculateHitDamage STANCE_OFFENSIVE STANCE_RETREAT = 15/100 :=
  ⟨by decide, (c8_hit_damage_formula STANCE_OFFENSIVE STANCE_RETREAT 5 ⟨0, ⟨[]⟩⟩).2.2.2
    (by decide)⟩

/-! ## C7 -/

/-- When nothing in the table matches, the update-in-place query comes back
empty. -/
theorem bumpFirstMatch_eq_none (tag : String) (params : ErrorParams) (worker now : Nat)
    (ns : List Notif) (h : ∀ n ∈ ns, notifMatches tag params worker n = false) :
    bumpFirstMatch tag params worker now ns = none := by
  induction ns with
  | nil => rfl
  | cons n rest ih =>
    simp only [bumpFirstMatch]
    rw [if_neg (by simp [h n (List.mem_cons_self _ _)])]
    rw [ih fun m hm => h m (List.mem_cons_of_mem _ hm)]
    rfl

/-- When the only match sits at the end of the table, exactly that row is
updated. -/
theorem bumpFirstMatch_append_match (tag : String) (params : ErrorParams) (worker now : Nat)
    (ns : List Notif) (x : Notif)
    (hns : ∀ n ∈ ns, notifMatches tag params worker n = false)
    (hx : notifMatches tag params worker x = true) :
    bumpFirstMatch tag params worker now (ns ++ [x]) =
      some (ns ++ [{ x with count := x.count + 1, gameDate := now }]) := by
  induction ns with
  | nil => simp [bumpFirstMatch, hx]
  | cons n rest ih =>
    simp only [List.cons_append, bumpFirstMatch]
    rw [if_neg (by simp [hns n (List.mem_cons_self _ _)])]
    rw [show rest.append [x] = rest ++ [x] from rfl]
    rw [ih fun m hm => hns m (List.mem_cons_of_mem _ hm)]
    rfl

/-- C7: reporting the same failure (tag, params, recipient) twice against a
table holding no matching record leaves exactly one matching record; its
`count` is `2` and its timestamp is the second report's; exactly one row was
added in total. -/
theorem c7_notification_dedup (notifs : List Notif) (tag : String) (params : ErrorParams)
    (worker t1 t2 : Nat)
    (h : ∀ n ∈ notifs, notifMatches tag params worker n = false) :
    (reportFailure tag params worker t2 (reportFailure tag params worker t1 notifs)).filter
        (notifMatches tag params worker) =
      [⟨tag, params, tag, params, some worker, none, 2, t2⟩] ∧
    (reportFailure tag params worker t2 (reportFailure tag params worker t1 notifs)).length =
      notifs.length + 1 := by
  have hfresh : notifMatches tag params worker ⟨tag, params, tag, params, some worker, none, 1, t1⟩
      = true := by simp [notifMatches]
  have step1 : reportFailure tag params worker t1 notifs =
      notifs ++ [⟨tag, params, tag, params, some worker, none, 1, t1⟩] := by
    unfold reportFailure
    rw [bumpFirstMatch_eq_none tag params worker t1 notifs h]
  have step2 : reportFailure tag params worker t2
      (notifs ++ [⟨tag, params, tag, params, some worker, none, 1, t1⟩]) =
      notifs ++ [⟨tag, params, tag, params, some worker, none, 2, t2⟩] := by
    unfold reportFailure
    rw [bumpFirstMatch_append_match tag params worker t2 notifs _ h hfresh]
  rw [step1, step2]
  constructor
  · rw [List.filter_append]
    have hnil : notifs.filter (notifMatches tag params worker) = [] :=
      List.filter_eq_nil_iff.mpr fun n hn => by simp [h n hn]
    rw [hnil]
    simp [notifMatches]
  · simp

/-- Witness for C7: two reports of `error_no_tool_for_activity` to character
`1` against an empty table produce the single merged record. -/
theorem c7_notification_dedup_witness :
    ((∀ n ∈ ([] : List Notif), notifMatches "error_no_tool_for_activity" [] 1 n = false) ∧
      (reportFailure "error_no_tool_for_activity" [] 1 9
          (reportFailure "error_no_tool_for_activity" [] 1 8 [])).filter
          (notifMatches "error_no_tool_for_activity" [] 1) =
        [⟨"error_no_tool_for_activity", [], "error_no_tool_for_activity", [], some 1, none, 2, 9⟩]) :=
  ⟨fun n hn => absurd hn (List.not_mem_nil n),
    (c7_notification_dedup [] "error_no_tool_for_activity" [] 1 8 9
      fun n hn => absurd hn (List.not_mem_nil n)).1⟩

/-! ## C10 -/

/-- If the requirement-line loop raises, the state it reports is exactly the
loop's input state: the prefix already passed over is unchanged and no item
has been moved. -/
theorem addLoop_err_state (inp : AddInput) (e : AddError) :
    ∀ (rest processed : List ReqGroup) (n m : Nat) (s' : AddState),
      addLoop inp n m processed rest = .err e s' → s' = ⟨n, m, processed ++ rest⟩ := by
  intro rest
  induction rest with
  | nil =>
    intro processed n m s' h
    simp only [addLoop] at h
    injection h with he hs
    rw [← hs]
    simp
  | cons g tl ih =>
    intro processed n m s' h
    simp only [addLoop] at h
    split_ifs at h with h1 h2 h3
    · injection h with he hs
      exact hs.symm
    · have := ih (processed ++ [g]) n m s' h
      simpa using this
    · have := ih (processed ++ [g]) n m s' h
      simpa using this

/-- C10: whenever `AddEntityToActivityAction.perform_action` raises one of its
typed domain exceptions, the state it leaves behind is exactly the input
state: no item was moved into the activity and no requirement line was
mutated, because every failing check runs before any mutation. -/
theorem c10_add_entity_atomic (inp : AddInput) (s : AddState) (e : AddError) (s' : AddState)
    (h : performAdd inp s = .err e s') : s' = s := by
  unfold performAdd at h
  split_ifs at h with h1 h2 h3
  · injection h with he hs
    exact hs.symm
  · injection h with he hs
    exact hs.symm
  · injection h with he hs
    exact hs.symm
  · have := addLoop_err_state inp e s.inputReq [] s.itemAmount s.activityItems s' h
    simpa using this

/-- Witness for C10: an over-sized amount raises `InvalidAmountException` and
the state is untouched. -/
theorem c10_add_entity_atomic_witness :
    performAdd demoAddInput demoAddState = .err .invalidAmount demoAddState ∧
    demoAddState = demoAddState :=
  ⟨by decide,
    c10_add_entity_atomic demoAddInput demoAddState .invalidAmount demoAddState (by decide)⟩

/-! ## C6 -/

/-- The worker loop distributes over list concatenation: active workers,
quality samples and failure reports concatenate, progress contributions
add. -/
theorem processWorkers_append (req : WorkerReq) (xs ys : List Worker) :
    processWorkers req (xs ++ ys) =
      ⟨(processWorkers req xs).activeWorkers ++ (processWorkers req ys).activeWorkers,
       (processWorkers req xs).toolBasedQuality ++ (processWorkers req ys).toolBasedQuality,
       (processWorkers req xs).progressRate + (processWorkers req ys).progressRate,
       (processWorkers req xs).failures ++ (processWorkers req ys).failures⟩ := by
  induction xs with
  | nil => simp [processWorkers]
  | cons w ws ih =>
    cases hcw : checkWorker req w with
    | ok impact =>
      simp [processWorkers, hcw, ih, List.append_assoc, add_assoc]
    | error e =>
      simp [processWorkers, hcw, ih]

/-- A worker id that occurs in none of the processed workers occurs in none of
the failure reports. -/
theorem processWorkers_failures_filter_nil (req : WorkerReq) (ws : List Worker) (wid : Nat)
    (h : wid ∉ ws.map Worker.id) :
    (processWorkers req ws).failures.filter (fun p => p.1 = wid) = [] := by
  induction ws with
  | nil => rfl
  | cons w rest ih =>
    simp only [List.map_cons, List.mem_cons] at h
    push_neg at h
    cases hcw : checkWorker req w with
    | ok impact =>
      simp [processWorkers, hcw, ih h.2]
    | error e =>
      have : ¬ (w.id = wid) := fun heq => h.1 heq.symm
      simp [processWorkers, hcw, List.filter_cons, this, ih h.2]

/-- C6: a worker failing a per-worker check is excluded from the active set and
reported to exactly once with that check's error, while the other workers'
contributions — the active set, the quality samples, and both arguments of the
`ticks_left` decrement — are exactly what they would be without the failing
worker. -/
theorem c6_worker_exclusion (req : WorkerReq) (pre post : List Worker) (w : Worker)
    (e : WorkerError) (hcheck : checkWorker req w = .error e)
    (hid : w.id ∉ (pre ++ post).map Worker.id) :
    (processWorkers req (pre ++ w :: post)).activeWorkers =
      (processWorkers req (pre ++ post)).activeWorkers ∧
    (processWorkers req (pre ++ w :: post)).failures.filter (fun p => p.1 = w.id) =
      [(w.id, e)] ∧
    (processWorkers req (pre ++ w :: post)).toolBasedQuality =
      (processWorkers req (pre ++ post)).toolBasedQuality ∧
    (processWorkers req (pre ++ w :: post)).progressRate =
      (processWorkers req (pre ++ post)).progressRate ∧
    (∀ baseRate machineQuality,
      progressArgs baseRate machineQuality req (pre ++ w :: post) =
        progressArgs baseRate machineQuality req (pre ++ post)) := by
  simp only [List.map_append, List.mem_append] at hid
  push_neg at hid
  have hw : processWorkers req (w :: post) =
      ⟨(processWorkers req post).activeWorkers, (processWorkers req post).toolBasedQuality,
       (processWorkers req post).progressRate, (w.id, e) :: (processWorkers req post).failures⟩ := by
    simp [processWorkers, hcheck]
  have h1 := processWorkers_append req pre (w :: post)
  have h2 := processWorkers_append req pre post
  have hfilterPre := processWorkers_failures_filter_nil req pre w.id hid.1
  have hfilterPost := processWorkers_failures_filter_nil req post w.id hid.2
  refine ⟨?_, ?_, ?_, ?_, ?_⟩
  · rw [h1, h2, hw]
  · rw [h1, hw]
    simp only [List.filter_append, hfilterPre, List.filter_cons]
    simp [hfilterPost]
  · rw [h1, h2, hw]
  · rw [h1, h2, hw]
  · intro baseRate machineQuality
    simp only [progressArgs, h1, h2, hw]

/-- Witness for C6: with `{"mandatory_tools": ["axe"]}` required, the worker
holding no axe is reported exactly one `NoToolForActivityException`. -/
theorem c6_worker_exclusion_witness :
    checkWorker axeReq toollessWorker = .error (.noToolForActivity "axe") ∧
    toollessWorker.id ∉ ([axeWorker] ++ []).map Worker.id ∧
    (processWorkers axeReq ([axeWorker] ++ toollessWorker :: [])).failures.filter
        (fun p => p.1 = toollessWorker.id) =
      [(toollessWorker.id, .noToolForActivity "axe")] :=
  ⟨rfl, by decide,
    (c6_worker_exclusion axeReq [axeWorker] [] toollessWorker (.noToolForActivity "axe")
      rfl (by decide)).2.1⟩

/-! ## C5 -/

/-- `commitReduction 3 4 10 = 12`: four items at ratio `3` reduce by twelve
group units. -/
theorem commitReduction_3_4_10 : commitReduction 3 4 (10:ℚ) = 12 := by
  have hceil : ⌈(10:ℚ)/3⌉ = (4:ℤ) := by
    rw [Int.ceil_eq_iff]
    norm_num
  unfold commitReduction
  rw [hceil]
  norm_num

/-- `commitReduction 1 4 10 = 4`: at ratio `1` the reduction equals the item
amount (no overshoot). -/
theorem commitReduction_1_4_10 : commitReduction 1 4 (10:ℚ) = 4 := by
  have hceil : ⌈(10:ℚ)/1⌉ = (10:ℤ) := by
    rw [Int.ceil_eq_iff]
    norm_num
  unfold commitReduction
  rw [hceil]
  norm_num

/-- C5 counterexample: the claimed ledger equality
`needed - left = committed - uncommitted` fails on a reachable state.  One
commit of `4` item units at conversion ratio `3` against a fresh line with
`needed = 10` moves `ceil(10/3) = 4` items, i.e. `12` group units, but `left`
only drops by the clamped `10`: afterwards `needed - left = 10` while the
committed total is `12`. -/
theorem c5_ledger_counterexample :
    ReqReachable 10 ⟨10, 0, 12, 0⟩ ∧ ¬ ((10 : ℚ) - 0 = 12 - 0) := by
  constructor
  · have hstep := ReqStep.commit 3 4 (initReqLine 10) (by norm_num)
      (by simp only [initReqLine]; norm_num)
    have hstate :
        ({ needed := (initReqLine 10).needed,
           left := max 0 ((initReqLine 10).left - commitReduction 3 4 (initReqLine 10).left),
           committed := (initReqLine 10).committed + commitReduction 3 4 (initReqLine 10).left,
           uncommitted := (initReqLine 10).uncommitted } : ReqLineState) = ⟨10, 0, 12, 0⟩ := by
      simp only [initReqLine, commitReduction_3_4_10]
      have hmax : max (0:ℚ) (10 - 12) = 0 := max_eq_left (by norm_num)
      simp [hmax]
    exact Relation.ReflTransGen.single (hstate ▸ hstep)
  · norm_num

/-- One overshoot-free step preserves the ledger equality and the
`0 ≤ left ≤ needed` bounds. -/
theorem reqStepSafe_preserves {x y : ReqLineState} (hstep : ReqStepSafe x y)
    (ihe : x.needed - x.left = x.committed - x.uncommitted)
    (ihl : 0 ≤ x.left) (ihr : x.left ≤ x.needed) :
    y.needed - y.left = y.committed - y.uncommitted ∧ 0 ≤ y.left ∧ y.left ≤ y.needed := by
  cases hstep with
  | commit ratio a s hratio hleft hsafe =>
    have hred0 : 0 ≤ commitReduction ratio a x.left := by
      unfold commitReduction
      have h1 : (0:ℤ) ≤ min (a : ℤ) ⌈x.left / ratio⌉ :=
        le_min (by exact_mod_cast Nat.zero_le a)
          (Int.ceil_nonneg (le_of_lt (div_pos hleft hratio)))
      exact mul_nonneg (by exact_mod_cast h1) (le_of_lt hratio)
    have hmax : max 0 (x.left - commitReduction ratio a x.left) =
        x.left - commitReduction ratio a x.left := max_eq_right (sub_nonneg.mpr hsafe)
    refine ⟨?_, ?_, ?_⟩
    · show x.needed - max 0 (x.left - commitReduction ratio a x.left) =
        x.committed + commitReduction ratio a x.left - x.uncommitted
      rw [hmax]
      linarith
    · exact le_max_left 0 _
    · show max 0 (x.left - commitReduction ratio a x.left) ≤ x.needed
      rw [hmax]
      linarith
  | uncommit ratio r s hratio hr =>
    have hceil : (0:ℚ) ≤ ((⌈r * ratio⌉ : ℤ) : ℚ) := by
      exact_mod_cast Int.ceil_nonneg (mul_nonneg hr (le_of_lt hratio))
    have hinc0 : 0 ≤ uncommitReturn ratio r x.needed x.left :=
      le_min hceil (sub_nonneg.mpr ihr)
    have hincle : uncommitReturn ratio r x.needed x.left ≤ x.needed - x.left :=
      min_le_right _ _
    refine ⟨?_, ?_, ?_⟩
    · show x.needed - (x.left + uncommitReturn ratio r x.needed x.left) =
        x.committed - (x.uncommitted + uncommitReturn ratio r x.needed x.left)
      linarith
    · exact add_nonneg ihl hinc0
    · show x.left + uncommitReturn ratio r x.needed x.left ≤ x.needed
      linarith

/-- C5, amended: the ledger equality, together with `0 ≤ left ≤ needed`, holds
on every state reachable by commits whose group-unit reduction does not
overshoot `left` (in particular all commits at conversion ratio `1`, where
`min(amount, ceil(left/ratio)) * ratio ≤ left` always) and arbitrary decay
un-commits. -/
theorem c5_ledger_invariant_amended (needed : ℚ) (hn : 0 ≤ needed) (s : ReqLineState)
    (h : ReqReachableSafe needed s) :
    s.needed - s.left = s.committed - s.uncommitted ∧ 0 ≤ s.left ∧ s.left ≤ s.needed := by
  unfold ReqReachableSafe at h
  induction h with
  | refl => simp [initReqLine, hn]
  | tail hsteps hstep ih => exact reqStepSafe_preserves hstep ih.1 ih.2.1 ih.2.2

/-- Witness for the amended C5: one ratio-`1` commit of `4` units against a
fresh `needed = 10` line reaches `left = 6` with committed ledger `4`, and the
invariant holds there. -/
theorem c5_ledger_invariant_witness :
    (0:ℚ) ≤ 10 ∧ ReqReachableSafe 10 ⟨10, 6, 4, 0⟩ ∧
    ((10:ℚ) - 6 = 4 - 0 ∧ (0:ℚ) ≤ 6 ∧ (6:ℚ) ≤ 10) := by
  have hstep := ReqStepSafe.commit 1 4 (initReqLine 10) (by norm_num)
    (by simp only [initReqLine]; norm_num)
    (by simp only [initReqLine, commitReduction_1_4_10]; norm_num)
  have hstate :
      ({ needed := (initReqLine 10).needed,
         left := max 0 ((initReqLine 10).left - commitReduction 1 4 (initReqLine 10).left),
         committed := (initReqLine 10).committed + commitReduction 1 4 (initReqLine 10).left,
         uncommitted := (initReqLine 10).uncommitted } : ReqLineState) = ⟨10, 6, 4, 0⟩ := by
    simp only [initReqLine, commitReduction_1_4_10]
    have hmax : max (0:ℚ) (10 - 4) = 6 := by rw [max_eq_right (by norm_num)]; norm_num
    simp [hmax]
  have hreach : ReqReachableSafe 10 ⟨10, 6, 4, 0⟩ :=
    Relation.ReflTransGen.single (hstate ▸ hstep)
  exact ⟨by norm_num, hreach, c5_ledger_invariant_amended 10 (by norm_num) _ hreach⟩

/-! ## C3 -/

/-- Merging empty injected arguments is the identity. -/
theorem mergeArgs_nil (args : ValArgs) : mergeArgs args .nil = args := by
  cases args with
  | nil => rfl
  | cons n v rest => simp [mergeArgs, valLookup, mergeArgs_nil rest]

/-- The unfolded recursive deserialization in `convertArg`'s action case
agrees with `call` on the stored record with no injected arguments. -/
theorem convertArg_actionClass_eq_call (reg : Registry) (w : World) (t : String)
    (as : SerArgs) :
    convertArg reg w (some .actionClass) (.srec t as) =
      (call reg w .nil (.srec t as)).map .actV := by
  simp only [convertArg, call]
  cases hd : lookupVariant reg t with
  | none => simp [Except.map]
  | some d =>
    cases hc : convertArgs reg w d as with
    | error e => simp [hc, Except.map]
    | ok converted =>
      simp only [hc]
      by_cases h1 : requiredOk d (mergeArgs converted ValArgs.nil) = true <;>
        by_cases h2 : namesOk d (mergeArgs converted ValArgs.nil) = true <;>
        simp [h1, h2, Except.map]

mutual

/-- A convertible value survives `serialize` then `convert` unchanged. -/
theorem convertArg_serializeV (reg : Registry) (w : World) (kind : Option ConvKind) (v : Value)
    (h : convertibleV reg w kind v = true) :
    convertArg reg w kind (serializeV v) = .ok v := by
  cases v with
  | ent id =>
    simp only [convertibleV, Bool.and_eq_true, decide_eq_true_eq] at h
    obtain ⟨hk, hm⟩ := h
    subst hk
    have hmem : id ∈ w.entityIds := by simpa using hm
    simp [serializeV, convertArg, Int.toNat_natCast, hmem, pure, Except.pure]
  | etype n =>
    simp only [convertibleV, Bool.and_eq_true, decide_eq_true_eq] at h
    obtain ⟨hk, hm⟩ := h
    subst hk
    have hmem : n ∈ w.typeNames := by simpa using hm
    simp [serializeV, convertArg, hmem, pure, Except.pure]
  | actV a =>
    simp only [convertibleV, Bool.and_eq_true, decide_eq_true_eq] at h
    obtain ⟨hk, hobj⟩ := h
    subst hk
    cases a with
    | mk t args =>
      have hcall := call_serializeObj reg w (.mk t args) hobj
      simp only [serializeObj] at hcall
      show convertArg reg w (some .actionClass) (serializeV (.actV (.mk t args))) =
        .ok (.actV (.mk t args))
      rw [show serializeV (.actV (.mk t args)) = .srec t (serializeArgs args) from rfl]
      rw [convertArg_actionClass_eq_call, hcall]
      rfl
  | vint n =>
    simp only [convertibleV, decide_eq_true_eq] at h
    subst h
    simp [serializeV, convertArg, pure, Except.pure]
  | vstr s =>
    simp only [convertibleV, decide_eq_true_eq] at h
    subst h
    simp [serializeV, convertArg, pure, Except.pure]
  | vnull => simp [convertibleV] at h
  | raw s => simp [convertibleV] at h

/-- A convertible action object round-trips through
`materialize ∘ serialize`. -/
theorem call_serializeObj (reg : Registry) (w : World) (a : ActObj)
    (h : convertibleObj reg w a = true) :
    call reg w .nil (serializeObj a) = .ok a := by
  cases a with
  | mk t args =>
    simp only [convertibleObj] at h
    cases hd : lookupVariant reg t with
    | none => rw [hd] at h; simp at h
    | some d =>
      rw [hd] at h
      simp only [Bool.and_eq_true] at h
      obtain ⟨⟨hreq, hnames⟩, hconv⟩ := h
      have hargs := convertArgs_serializeArgs reg w d args hconv
      simp [serializeObj, call, hd, hargs, mergeArgs_nil, hreq, hnames]

/-- Argument dictionaries of convertible values round-trip entry by entry. -/
theorem convertArgs_serializeArgs (reg : Registry) (w : World) (d : VariantDesc)
    (args : ValArgs) (h : convertibleArgs reg w d args = true) :
    convertArgs reg w d (serializeArgs args) = .ok args := by
  cases args with
  | nil => rfl
  | cons n v rest =>
    simp only [convertibleArgs, Bool.and_eq_true] at h
    have h1 := convertArg_serializeV reg w (d.convOf n) v h.1
    have h2 := convertArgs_serializeArgs reg w d rest h.2
    simp [serializeArgs, convertArgs, h1, h2]

end

/-- C3 counterexample: `JoinActivityAction` is a serializable action variant
(its instances are handed to `perform_or_turn_into_intent`) whose constructor
has no `@convert` decorator.  Serializing an instance holding entities `5` and
`7` and materializing the record yields an action whose `executor`/`activity`
attributes are the bare integers `5`/`7`, not the entities — the round trip
does not reproduce identical observable argument values for every variant. -/
theorem c3_roundtrip_counterexample :
    call exerisRegistry demoWorld .nil (serializeObj joinActivityObj) =
      .ok (.mk "exeris.core.actions.JoinActivityAction"
        (.cons "executor" (.vint 5) (.cons "activity" (.vint 7) .nil))) ∧
    call exerisRegistry demoWorld .nil (serializeObj joinActivityObj) ≠ .ok joinActivityObj := by
  constructor
  · decide
  · decide

/-- C3, amended: `materialize ∘ serialize` reproduces the action — entity
arguments resolving to the same identities, entity types by name, nested
actions recursively — for every variant whose entity-, type- and action-valued
constructor parameters carry matching `@convert` declarations and whose entity
references exist in the store. -/
theorem c3_roundtrip_amended (w : World) (a : ActObj)
    (h : convertibleObj exerisRegistry w a = true) :
    call exerisRegistry w .nil (serializeObj a) = .ok a :=
  call_serializeObj exerisRegistry w a h

/-- Witness for the amended C3: a `WorkOnActivityAction` over entities `5` and
`7` round-trips to itself. -/
theorem c3_roundtrip_witness :
    convertibleObj exerisRegistry demoWorld workOnActivityObj = true ∧
    call exerisRegistry demoWorld .nil (serializeObj workOnActivityObj) =
      .ok workOnActivityObj :=
  ⟨by decide, c3_roundtrip_amended demoWorld workOnActivityObj (by decide)⟩

/-! ## C9 -/

/-- Conversion preserves the argument names. -/
theorem convertArgs_names (reg : Registry) (w : World) (d : VariantDesc) (args : SerArgs) :
    ∀ l : ValArgs, convertArgs reg w d args = .ok l → valNames l = serNames args := by
  cases args with
  | nil =>
    intro l h
    injection h with h
    rw [← h]
    rfl
  | cons n v rest =>
    intro l h
    simp only [convertArgs] at h
    cases hv : convertArg reg w (d.convOf n) v with
    | error e => rw [hv] at h; exact absurd h (by simp)
    | ok v' =>
      rw [hv] at h
      cases hr : convertArgs reg w d rest with
      | error e => rw [hr] at h; exact absurd h (by simp)
      | ok rest' =>
        rw [hr] at h
        injection h with h
        rw [← h]
        simp [valNames, serNames, convertArgs_names reg w d rest rest' hr]

/-- Removing a key keeps an absent key absent. -/
theorem valLookup_valRemove_none (b : ValArgs) (n r : String) (h : valLookup b r = none) :
    valLookup (valRemove b n) r = none := by
  cases b with
  | nil => rfl
  | cons m v rest =>
    simp only [valLookup] at h
    by_cases hm : m = r
    · simp [hm] at h
    · rw [if_neg hm] at h
      simp only [valRemove]
      by_cases hn : m = n
      · rw [if_pos hn]
        exact valLookup_valRemove_none rest n r h
      · rw [if_neg hn]
        simp only [valLookup]
        rw [if_neg hm]
        exact valLookup_valRemove_none rest n r h

/-- A key absent from both dictionaries is absent from their merge. -/
theorem mergeArgs_lookup_none (a : ValArgs) : ∀ (b : ValArgs) (r : String),
    valLookup a r = none → valLookup b r = none → valLookup (mergeArgs a b) r = none := by
  cases a with
  | nil => intro b r _ hb; exact hb
  | cons n v rest =>
    intro b r ha hb
    simp only [valLookup] at ha
    by_cases hn : n = r
    · simp [hn] at ha
    · rw [if_neg hn] at ha
      simp only [mergeArgs]
      cases hl : valLookup b n with
      | none =>
        simp only [valLookup]
        rw [if_neg hn]
        exact mergeArgs_lookup_none rest b r ha hb
      | some v' =>
        simp only [valLookup]
        rw [if_neg hn]
        exact mergeArgs_lookup_none rest (valRemove b n) r ha
          (valLookup_valRemove_none b n r hb)

/-- A name outside the dictionary's name list is not found. -/
theorem valLookup_none_of_not_mem (a : ValArgs) (r : String) (h : r ∉ valNames a) :
    valLookup a r = none := by
  cases a with
  | nil => rfl
  | cons n v rest =>
    simp only [valNames, List.mem_cons] at h
    push_neg at h
    simp only [valLookup]
    rw [if_neg fun hn => h.1 hn.symm]
    exact valLookup_none_of_not_mem rest r h.2

/-- C9 counterexample: the two malformation cases do not fail with one
dedicated error type.  An unknown `type_id` fails with the import error of
`object_import` (`ImportError`/`AttributeError`), while a known variant whose
stored args miss a required constructor parameter (here `stance` of
`FightInCombatAction`) fails with the constructor's `TypeError` — two distinct
error kinds, and no `MalformedRecordError` exists in the code. -/
theorem c9_error_kind_counterexample :
    call exerisRegistry demoWorld .nil (.srec "exeris.core.actions.NoSuchAction" .nil) =
      .error (.importFailure "exeris.core.actions.NoSuchAction") ∧
    call exerisRegistry demoWorld .nil
        (.srec "exeris.core.actions.FightInCombatAction"
          (.cons "executor" (.sint 5)
            (.cons "combat_entity" (.sint 9) (.cons "side" (.sint 0) .nil)))) =
      .error (.typeFailure "exeris.core.actions.FightInCombatAction") ∧
    CallErr.importFailure "exeris.core.actions.NoSuchAction" ≠
      CallErr.typeFailure "exeris.core.actions.FightInCombatAction" := by
  refine ⟨by decide, by decide, by decide⟩

/-- C9, amended: materializing a record with an unknown `type_id` fails (with
the import-machinery error), and materializing a record for a known variant
whose stored and injected args leave a required constructor parameter unbound
fails (with the constructor's argument error) — but through the host
language's generic exceptions, not a single dedicated error type. -/
theorem c9_malformed_record_amended (w : World) (t : String) (args : SerArgs)
    (injected : ValArgs) :
    (lookupVariant exerisRegistry t = none →
      call exerisRegistry w injected (.srec t args) = .error (.importFailure t)) ∧
    (∀ (d : VariantDesc) (r : String), lookupVariant exerisRegistry t = some d →
      r ∈ d.required → r ∉ serNames args → valLookup injected r = none →
      ∃ e, call exerisRegistry w injected (.srec t args) = .error e) := by
  constructor
  · intro h
    simp [call, h]
  · intro d r hd hr hargs hinj
    cases hconv : convertArgs exerisRegistry w d args with
    | error e =>
      exact ⟨e, by simp [call, hd, hconv]⟩
    | ok l =>
      have hnames := convertArgs_names exerisRegistry w d args l hconv
      have hlookup : valLookup l r = none :=
        valLookup_none_of_not_mem l r (by rw [hnames]; exact hargs)
      have hmerged : valLookup (mergeArgs l injected) r = none :=
        mergeArgs_lookup_none l injected r hlookup hinj
      have hreq : requiredOk d (mergeArgs l injected) = false := by
        apply List.all_eq_false.mpr
        exact ⟨r, hr, by simp [hmerged]⟩
      exact ⟨.typeFailure t, by simp [call, hd, hconv, hreq]⟩

/-- Witness for the amended C9: the unknown class name fails with the import
error. -/
theorem c9_malformed_record_witness :
    call exerisRegistry demoWorld .nil (.srec "exeris.core.actions.NoSuchAction" .nil) =
      .error (.importFailure "exeris.core.actions.NoSuchAction") :=
  (c9_malformed_record_amended demoWorld "exeris.core.actions.NoSuchAction" .nil .nil).1 rfl

end Exeris
